import Mathlib

/-!
Verification of the self-contained export bundler of the stack-flow
repository (`src/services/selfContained.js`), via a shallow embedding.

JavaScript strings are modelled as `List Char` (sequences of Unicode scalar
values; Lean's `Char` carries exactly the valid-scalar invariant).  Bytes and
code points are `Nat`.  Fallible operations return `Option`/`Except`.  The
browser environment (DOM elements, `fetch`, the store) is passed explicitly:
`fetch` becomes an oracle `Str → Except JsErr Str`, and the parsed
`__SELF_MODULES__` element becomes an `Option SelfModules` input.
-/

/-- JavaScript strings, as lists of Unicode scalar values. -/
abbrev Str := List Char

/-- Errors a bundling step can raise (a failed `fetch`, or a `decodeBase64`
call throwing on malformed input). -/
inductive JsErr where
  | fetchFailure
  | decodeFailure
deriving DecidableEq

/-- The `fetch`-as-text capability of the environment: URL to result text. -/
abbrev FetchOracle := Str → Except JsErr Str

/-! ## Base64 / UTF-8 codec

`encodeBase64(str) = btoa(unescape(encodeURIComponent(str)))` in the source:
`encodeURIComponent` followed by `unescape` turns the string into its UTF-8
bytes (held in a byte-per-char string), and `btoa` base64-encodes those bytes.
`decodeBase64(b64) = decodeURIComponent(escape(atob(b64)))` is the inverse:
`atob` recovers the bytes and `escape`/`decodeURIComponent` decodes them as
UTF-8 (rejecting malformed sequences with a `URIError`, modelled as `none`).
-/

/-- UTF-8 encoding of one Unicode scalar value (the byte sequence
`encodeURIComponent` percent-encodes for that character). -/
def utf8EncodeChar (c : Nat) : List Nat :=
  if c < 0x80 then [c]
  else if c < 0x800 then [0xC0 + c / 64, 0x80 + c % 64]
  else if c < 0x10000 then [0xE0 + c / 4096, 0x80 + c / 64 % 64, 0x80 + c % 64]
  else [0xF0 + c / 262144, 0x80 + c / 4096 % 64, 0x80 + c / 64 % 64, 0x80 + c % 64]

/-- UTF-8 encoding of a string's scalar values. -/
def utf8Encode (s : Str) : List Nat :=
  s.flatMap (fun c => utf8EncodeChar c.toNat)

/-- Decode the scalar value of a two-byte UTF-8 sequence: the continuation
byte must be in range and the value must not be overlong. -/
def utf8Dec2 (b b1 : Nat) : Option Nat :=
  if 0x80 ≤ b1 ∧ b1 < 0xC0 then
    if 0x80 ≤ (b - 0xC0) * 64 + (b1 - 0x80) then some ((b - 0xC0) * 64 + (b1 - 0x80))
    else none
  else none

/-- Decode the scalar value of a three-byte UTF-8 sequence: continuation
bytes in range, value neither overlong nor a surrogate. -/
def utf8Dec3 (b b1 b2 : Nat) : Option Nat :=
  if (0x80 ≤ b1 ∧ b1 < 0xC0) ∧ (0x80 ≤ b2 ∧ b2 < 0xC0) then
    if 0x800 ≤ (b - 0xE0) * 4096 + (b1 - 0x80) * 64 + (b2 - 0x80) ∧
        ((b - 0xE0) * 4096 + (b1 - 0x80) * 64 + (b2 - 0x80) < 0xD800 ∨
         0xE000 ≤ (b - 0xE0) * 4096 + (b1 - 0x80) * 64 + (b2 - 0x80)) then
      some ((b - 0xE0) * 4096 + (b1 - 0x80) * 64 + (b2 - 0x80))
    else none
  else none

/-- Decode the scalar value of a four-byte UTF-8 sequence: continuation
bytes in range, value in the supplementary-plane range. -/
def utf8Dec4 (b b1 b2 b3 : Nat) : Option Nat :=
  if (0x80 ≤ b1 ∧ b1 < 0xC0) ∧ (0x80 ≤ b2 ∧ b2 < 0xC0) ∧ (0x80 ≤ b3 ∧ b3 < 0xC0) then
    if 0x10000 ≤ (b - 0xF0) * 262144 + (b1 - 0x80) * 4096 + (b2 - 0x80) * 64 + (b3 - 0x80) ∧
        (b - 0xF0) * 262144 + (b1 - 0x80) * 4096 + (b2 - 0x80) * 64 + (b3 - 0x80) < 0x110000 then
      some ((b - 0xF0) * 262144 + (b1 - 0x80) * 4096 + (b2 - 0x80) * 64 + (b3 - 0x80))
    else none
  else none

/-- Decode one UTF-8-encoded scalar value from the head of a byte sequence,
returning it with the remaining bytes; malformed leads, truncated sequences,
overlong forms, surrogate code points and out-of-range values are rejected
(`URIError`, modelled as `none`). -/
def utf8DecodeOne : List Nat → Option (Nat × List Nat)
  | [] => none
  | b :: rest =>
    if b < 0x80 then some (b, rest)
    else if b < 0xC0 then none
    else if b < 0xE0 then
      match rest with
      | b1 :: r => (utf8Dec2 b b1).map (fun c => (c, r))
      | [] => none
    else if b < 0xF0 then
      match rest with
      | b1 :: b2 :: r => (utf8Dec3 b b1 b2).map (fun c => (c, r))
      | _ => none
    else if b < 0xF8 then
      match rest with
      | b1 :: b2 :: b3 :: r => (utf8Dec4 b b1 b2 b3).map (fun c => (c, r))
      | _ => none
    else none

/-- The decoding loop: scalar values are decoded off the head until the
input is exhausted.  Each step consumes at least one byte, so the fuel
(initially the byte count, making the recursion structural) never runs
out. -/
def utf8DecodeLoop : Nat → List Nat → Option (List Nat)
  | _, [] => some []
  | 0, _ :: _ => none
  | fuel + 1, b :: rest =>
    (utf8DecodeOne (b :: rest)).bind
      (fun cr => (utf8DecodeLoop fuel cr.2).map (cr.1 :: ·))

/-- UTF-8 decoding of a byte sequence, as `decodeURIComponent` performs it. -/
def utf8Decode (bs : List Nat) : Option (List Nat) := utf8DecodeLoop bs.length bs

/-- The `btoa` alphabet. -/
def b64Alphabet : Str :=
  "ABCDEFGHIJKLMNOPQRSTUVWXYZabcdefghijklmnopqrstuvwxyz0123456789+/".data

/-- Sextet value to base64 digit. -/
def b64Char (n : Nat) : Char := b64Alphabet.getD n 'A'

/-- Base64 digit back to its sextet value (`none` for a non-alphabet char,
on which `atob` throws). -/
def b64Index (c : Char) : Option Nat := b64Alphabet.findIdx? (· = c)

/-- `btoa`: base64-encode a byte sequence (3 bytes to 4 digits, `=`-padded). -/
def b64Encode : List Nat → Str
  | [] => []
  | [a] => [b64Char (a / 4), b64Char (a % 4 * 16), '=', '=']
  | [a, b] => [b64Char (a / 4), b64Char (a % 4 * 16 + b / 16), b64Char (b % 16 * 4), '=']
  | a :: b :: c :: rest =>
    b64Char (a / 4) :: b64Char (a % 4 * 16 + b / 16) :: b64Char (b % 16 * 4 + c / 64) ::
      b64Char (c % 64) :: b64Encode rest

/-- `atob`: decode a base64 string back to bytes (`none` where `atob` throws:
bad length, stray `=`, or non-alphabet digits). -/
def b64Decode : Str → Option (List Nat)
  | [] => some []
  | c0 :: c1 :: c2 :: c3 :: rest =>
    if c2 = '=' then
      if c3 = '=' ∧ rest = [] then
        match b64Index c0, b64Index c1 with
        | some s0, some s1 => some [s0 * 4 + s1 / 16]
        | _, _ => none
      else none
    else if c3 = '=' then
      if rest = [] then
        match b64Index c0, b64Index c1, b64Index c2 with
        | some s0, some s1, some s2 => some [s0 * 4 + s1 / 16, s1 % 16 * 16 + s2 / 4]
        | _, _, _ => none
      else none
    else
      match b64Index c0, b64Index c1, b64Index c2, b64Index c3 with
      | some s0, some s1, some s2, some s3 =>
        (b64Decode rest).map
          (fun tail => (s0 * 4 + s1 / 16) :: (s1 % 16 * 16 + s2 / 4) :: (s2 % 4 * 64 + s3) :: tail)
      | _, _, _, _ => none
  | _ => none

/-- `encodeBase64(str)`: `btoa(unescape(encodeURIComponent(str)))` — UTF-8
bytes of the string, base64-encoded. -/
def encodeBase64 (s : Str) : Str := b64Encode (utf8Encode s)

/-- `decodeBase64(b64)`: `decodeURIComponent(escape(atob(b64)))` — base64 to
bytes, then UTF-8 decode; `none` models the `atob`/`decodeURIComponent`
exceptions. -/
def decodeBase64 (b : Str) : Option Str :=
  ((b64Decode b).bind utf8Decode).map (fun cs => cs.map Char.ofNat)

/-! ## Path utilities (POSIX-like) -/

/-- `dirname(p)`: the characters before the last `/`, or `''` when the path
has no `/` (`lastIndexOf` returning `-1`). -/
def dirname (p : Str) : Str :=
  match p.reverse.dropWhile (fun c => c ≠ '/') with
  | [] => []
  | _ :: r => r.reverse

/-- `path.split('/')`. -/
def splitSlash : Str → List Str
  | [] => [[]]
  | c :: rest =>
    if c = '/' then [] :: splitSlash rest
    else
      match splitSlash rest with
      | [] => [[c]]
      | s :: ss => (c :: s) :: ss

/-- One step of `normalizePath`'s `forEach` body: empty and `.` segments are
skipped, `..` pops the last collected segment when one exists (and is
otherwise silently dropped), anything else is pushed. -/
def normStep (parts : List Str) (seg : Str) : List Str :=
  if seg = [] ∨ seg = ['.'] then parts
  else if seg = ['.', '.'] then parts.dropLast
  else parts ++ [seg]

/-- `parts.join('/')`. -/
def joinSlash (parts : List Str) : Str := (parts.intersperse ['/']).flatten

/-- `normalizePath(path)`: split on `/`, collapse `.`/`..` left-to-right,
rejoin. -/
def normalizePath (path : Str) : Str :=
  joinSlash (List.foldl normStep [] (splitSlash path))

/-- `resolveRelative(fromPath, rel)`: a specifier starting with `/` is
normalized with one leading slash stripped; otherwise the specifier is
resolved against `dirname(fromPath)`. -/
def resolveRelative (fromPath rel : Str) : Str :=
  match rel with
  | '/' :: restRel => normalizePath restRel
  | _ =>
    normalizePath ((if dirname fromPath ≠ [] then dirname fromPath ++ ['/'] else []) ++ rel)

/-! ## Script-tag escaping

`escapeForScriptTag(text)` is
`text.replace(/<\/script/gi, '<\\/script').replace(/<\/script/gi, '<\\/script')`:
two identical global, case-insensitive passes, each rewriting every
occurrence of `</script` (any letter casing) to `<\/script`.
-/

/-- ASCII lowercasing, as the `i` regex flag canonicalizes the pattern's
ASCII letters. -/
def lowerChar (c : Char) : Char :=
  if 'A' ≤ c ∧ c ≤ 'Z' then Char.ofNat (c.toNat + 32) else c

/-- Case-insensitive "the first list is a prefix of the second". -/
def startsCI : Str → Str → Bool
  | [], _ => true
  | _ :: _, [] => false
  | a :: as, b :: bs => lowerChar a = lowerChar b && startsCI as bs

/-- The pattern `</script` of `/<\/script/gi`. -/
def scriptClose : Str := ['<', '/', 's', 'c', 'r', 'i', 'p', 't']

/-- The scan of one `replace(/<\/script/gi, '<\\/script')` pass: at each
position, a match (8 characters, case-insensitive) is replaced by the
literal `<\/script` and scanning resumes after it.  The fuel (initially the
string's length, an upper bound on the number of steps, each of which
consumes at least one character) only makes the recursion structural. -/
def replaceScriptFuel : Nat → Str → Str
  | 0, s => s
  | _ + 1, [] => []
  | fuel + 1, c :: rest =>
    if startsCI scriptClose (c :: rest) then
      '<' :: '\\' :: '/' :: 's' :: 'c' :: 'r' :: 'i' :: 'p' :: 't' ::
        replaceScriptFuel fuel (rest.drop 7)
    else c :: replaceScriptFuel fuel rest

/-- One global, case-insensitive `replace(/<\/script/gi, '<\\/script')`
pass. -/
def replaceScriptCI (s : Str) : Str := replaceScriptFuel s.length s

/-- `escapeForScriptTag(text)`: the same replacement applied twice, exactly as
in the source. -/
def escapeForScriptTag (text : Str) : Str := replaceScriptCI (replaceScriptCI text)

/-- Whether a string contains `</script` in any letter casing. -/
def containsScriptCloseCI : Str → Bool
  | [] => false
  | c :: rest => startsCI scriptClose (c :: rest) || containsScriptCloseCI rest

/-! ## Import rewriter

`rewriteImportsToVirtual(spec, code)` applies four global regex replaces, in
order:
1. `/(\bimport\s+[^'"]*?\sfrom\s*)(['"])(\.{1,2}\/[^'"]+)\2(\s*;?)/g`
2. `/(\bimport\s*)(['"])(\.{1,2}\/[^'"]+)\2(\s*;?)/g`
3. `/(\bexport\s+[^'"]*?\sfrom\s*)(['"])(\.{1,2}\/[^'"]+)\2(\s*;?)/g`
4. `/(import\s*\(\s*)(['"])(\.{1,2}\/[^'"]+)\2(\s*\))/g`
Each match keeps its surrounding groups verbatim and swaps the quoted
relative specifier for `__m__/<resolved>`.  The embedding below scans
left-to-right, attempting a full-pattern match at every position, replacing
and resuming after the match — the behaviour of a global replace.  The lazy
`[^'"]*?` middle is modelled by extending the middle one non-quote character
at a time until `\sfrom\s*<quoted>` matches (the engine's shortest-first
order); backtracking from the greedy `\s+` run into the middle is not
modelled — the two differ only on degenerate heads such as `import  from`
where `from` is the imported binding itself.
-/

/-- JS `\w` / word-boundary alphabet: `[A-Za-z0-9_]`. -/
def jsWordChar (c : Char) : Bool := c.isAlpha || c.isDigit || c = '_'

/-- JS `\s` (the ASCII part; the Unicode space members never appear in the
patterns' surroundings in this code base). -/
def jsSpace (c : Char) : Bool :=
  c = ' ' || c = '\t' || c = '\n' || c = '\r' || c = '\x0b' || c = '\x0c'

/-- A single or double quote, the `['"]` class. -/
def isQuote (c : Char) : Bool := c = '\x27' || c = '"'

/-- The shape `\.{1,2}\/[^'"]+` of a relative specifier body (the body's
characters are already quote-free by construction). -/
def relSpecShape : Str → Bool
  | '.' :: '/' :: r => !r.isEmpty
  | '.' :: '.' :: '/' :: r => !r.isEmpty
  | _ => false

/-- Match the literal characters at the head of a string, returning the rest. -/
def matchLit : Str → Str → Option Str
  | [], s => some s
  | _ :: _, [] => none
  | l :: ls, c :: cs => if c = l then matchLit ls cs else none

/-- `(['"])(\.{1,2}\/[^'"]+)\2` at the head: the opening quote, a relative
specifier body free of quotes, and the matching closing quote. -/
def parseQuotedRel : Str → Option (Char × Str × Str)
  | [] => none
  | c :: rest =>
    if isQuote c then
      match rest.dropWhile (fun x => !isQuote x) with
      | c2 :: rest2 =>
        if c2 = c ∧ relSpecShape (rest.takeWhile (fun x => !isQuote x)) then
          some (c, rest.takeWhile (fun x => !isQuote x), rest2)
        else none
      | [] => none
    else none

/-- The trailing group `(\s*;?)`: greedy spaces, one optional semicolon.
Returns (consumed, rest). -/
def suffixSemi (s : Str) : Str × Str :=
  match s.dropWhile jsSpace with
  | ';' :: r => (s.takeWhile jsSpace ++ [';'], r)
  | _ => (s.takeWhile jsSpace, s.dropWhile jsSpace)

/-- The literal `import`. -/
def importKw : Str := ['i', 'm', 'p', 'o', 'r', 't']

/-- The literal `export`. -/
def exportKw : Str := ['e', 'x', 'p', 'o', 'r', 't']

/-- The virtual identifier `__m__/<path>` of a module path. -/
def virtualOf (p : Str) : Str := '_' :: '_' :: 'm' :: '_' :: '_' :: '/' :: p

/-- Attempt `\sfrom\s*(['"])(\.{1,2}\/[^'"]+)\2(\s*;?)` at the head; on
success return the matched text with the specifier rewritten to its virtual
identifier, and the rest of the input. -/
def fromTail (srcPath : Str) : Str → Option (Str × Str)
  | [] => none
  | c :: rest =>
    if jsSpace c then
      match matchLit ['f', 'r', 'o', 'm'] rest with
      | some afterFrom =>
        match parseQuotedRel (afterFrom.dropWhile jsSpace) with
        | some (q, path, afterQ) =>
          some (c :: 'f' :: 'r' :: 'o' :: 'm' :: afterFrom.takeWhile jsSpace ++
                  q :: virtualOf (resolveRelative srcPath path) ++ q :: (suffixSemi afterQ).1,
                (suffixSemi afterQ).2)
        | none => none
      | none => none
    else none

/-- The lazy `[^'"]*?` middle: try `fromTail` with the shortest middle first,
growing it one non-quote character at a time.  Returns (middle, rewritten
from-part, rest). -/
def lazyFromLoop (srcPath : Str) : Str → Option (Str × Str × Str)
  | [] => none
  | c :: rest =>
    match fromTail srcPath (c :: rest) with
    | some (rew, rest2) => some ([], rew, rest2)
    | none =>
      if isQuote c then none
      else
        match lazyFromLoop srcPath rest with
        | some (mid, rew, rest2) => some (c :: mid, rew, rest2)
        | none => none

/-- Patterns 1 and 3, `(\b(kw)\s+[^'"]*?\sfrom\s*)(['"])(rel)\2(\s*;?)`:
`prevWord` tells whether the previous character is a word character (so that
`\b` holds exactly when it is false). -/
def tryFromPattern (kw srcPath : Str) (prevWord : Bool) (s : Str) : Option (Str × Str) :=
  if prevWord then none
  else
    match matchLit kw s with
    | some afterKw =>
      if afterKw.takeWhile jsSpace = [] then none
      else
        match lazyFromLoop srcPath (afterKw.dropWhile jsSpace) with
        | some (mid, rew, rest2) => some (kw ++ afterKw.takeWhile jsSpace ++ mid ++ rew, rest2)
        | none => none
    | none => none

/-- Pattern 2, `(\bimport\s*)(['"])(rel)\2(\s*;?)`. -/
def tryBareImport (srcPath : Str) (prevWord : Bool) (s : Str) : Option (Str × Str) :=
  if prevWord then none
  else
    match matchLit importKw s with
    | some afterKw =>
      match parseQuotedRel (afterKw.dropWhile jsSpace) with
      | some (q, path, afterQ) =>
        some (importKw ++ afterKw.takeWhile jsSpace ++
                q :: virtualOf (resolveRelative srcPath path) ++ q :: (suffixSemi afterQ).1,
              (suffixSemi afterQ).2)
      | none => none
    | none => none

/-- Pattern 4, `(import\s*\(\s*)(['"])(rel)\2(\s*\))` (no word boundary in
the source regex). -/
def tryDynamicImport (srcPath : Str) (s : Str) : Option (Str × Str) :=
  match matchLit importKw s with
  | some afterKw =>
    match afterKw.dropWhile jsSpace with
    | '(' :: afterParen =>
      match parseQuotedRel (afterParen.dropWhile jsSpace) with
      | some (q, path, afterQ) =>
        match afterQ.dropWhile jsSpace with
        | ')' :: rest2 =>
          some (importKw ++ afterKw.takeWhile jsSpace ++
                  '(' :: afterParen.takeWhile jsSpace ++
                  q :: virtualOf (resolveRelative srcPath path) ++
                  q :: afterQ.takeWhile jsSpace ++ [')'],
                rest2)
        | _ => none
      | none => none
    | _ => none
  | none => none

/-- Global-replace driver: at each position attempt a match; on success emit
the replacement and resume after the match, otherwise emit the character.
`prevWord` tracks the preceding character for `\b`; the fuel (initially the
string's length, an upper bound on the number of steps) only makes the
recursion structural. -/
def scanReplace (tryM : Bool → Str → Option (Str × Str)) : Nat → Bool → Str → Str
  | 0, _, s => s
  | _ + 1, _, [] => []
  | fuel + 1, prevWord, c :: rest =>
    match tryM prevWord (c :: rest) with
    | some (rep, after) => rep ++ scanReplace tryM fuel (jsWordChar (rep.getLastD ' ')) after
    | none => c :: scanReplace tryM fuel (jsWordChar c) rest

/-- `rewriteImportsToVirtual(spec, code)`: the four replaces, in source
order, each pass feeding the next. -/
def rewriteImportsToVirtual (spec code : Str) : Str :=
  let c1 := scanReplace (tryFromPattern importKw spec) code.length false code
  let c2 := scanReplace (tryBareImport spec) c1.length false c1
  let c3 := scanReplace (tryFromPattern exportKw spec) c2.length false c2
  scanReplace (fun _ s => tryDynamicImport spec s) c3.length false c3

/-! ## Source acquisition

`readEmbeddedSelfModules()` reads the `__SELF_MODULES__` element of the
current document and JSON-parses it, returning `null` when the element is
absent, the JSON is malformed, or the shape check
(`parsed.filesBase64 && parsed.list && Array.isArray(parsed.list)`) fails.
The embedding's environment carries the already-parsed outcome of that DOM
read as an `Option SelfModules`, so the function is the identity on it.
-/

/-- The parsed `__SELF_MODULES__` payload: base64 sources keyed by module
path, the ordered module list, and the optional third-party library and
stylesheet entries (empty string when absent, as the encoder emits). -/
structure SelfModules where
  filesBase64 : List (Str × Str)
  list : List Str
  html2canvasBase64 : Str
  cssBase64 : Str

/-- `readEmbeddedSelfModules()` on the environment's parsed element. -/
def readEmbeddedSelfModules (doc : Option SelfModules) : Option SelfModules := doc

/-- `fetchText(url)`: the environment's fetch; a non-ok response is the
thrown error. -/
def fetchText (f : FetchOracle) (url : Str) : Except JsErr Str := f url

/-- The module list bundled into the standalone artifact. -/
def MODULE_PATHS : List Str :=
  ["src/app.js".data,
   "src/core/store.js".data,
   "src/core/eventBus.js".data,
   "src/core/commandStack.js".data,
   "src/core/types.js".data,
   "src/core/id.js".data,
   "src/core/normalizeTypes.js".data,
   "src/ui/CanvasManager.js".data,
   "src/ui/NodeRenderer.js".data,
   "src/ui/EdgeRenderer.js".data,
   "src/ui/ConnectionManager.js".data,
   "src/ui/Inspector.js".data,
   "src/services/persistence.js".data,
   "src/services/exporters.js".data,
   "src/services/validate.js".data,
   "src/services/selfContained.js".data]

/-- The html2canvas CDN location. -/
def HTML2CANVAS_CDN : Str :=
  "https://cdn.jsdelivr.net/npm/html2canvas@1.4.1/dist/html2canvas.min.js".data

/-- First-binding association lookup (JS object indexing; duplicate keys
cannot arise from `Object.entries`/`Object.keys`). -/
def lookupA (k : Str) : List (Str × Str) → Option Str
  | [] => none
  | (k', v) :: rest => if k = k' then some v else lookupA k rest

/-- The CDN fallback of `getHtml2CanvasCode`: fetch, and on failure warn and
return the empty string (recoverable degradation). -/
def html2canvasFallback (f : FetchOracle) : Str :=
  match fetchText f HTML2CANVAS_CDN with
  | .ok t => t
  | .error _ => []

/-- `getHtml2CanvasCode()`: reuse the embedded base64 copy when present
(a `decodeBase64` throw propagates — there is no catch on this path),
otherwise fetch from the CDN, degrading to `''` on failure. -/
def getHtml2CanvasCode (embedded : Option SelfModules) (f : FetchOracle) : Except JsErr Str :=
  match readEmbeddedSelfModules embedded with
  | some m =>
    if m.html2canvasBase64 ≠ [] then
      match decodeBase64 m.html2canvasBase64 with
      | some t => .ok t
      | none => .error .decodeFailure
    else .ok (html2canvasFallback f)
  | none => .ok (html2canvasFallback f)

/-- The hosted stylesheet location. -/
def cssUrl : Str := "./assets/styles.css".data

/-- The last resort of `getCssText`: fetch the hosted stylesheet, and on
failure warn and proceed with the empty string. -/
def cssFallbackFetch (f : FetchOracle) : Str :=
  match fetchText f cssUrl with
  | .ok t => t
  | .error _ => []

/-- The inline-style-element branch of `getCssText`
(`styleEl && styleEl.textContent`), falling back to the fetch. -/
def cssInlineOr (inlineCss : Option Str) (f : FetchOracle) : Str :=
  match inlineCss with
  | some t => if t ≠ [] then t else cssFallbackFetch f
  | none => cssFallbackFetch f

/-- `getCssText()`: embedded `cssBase64` first (decode failure caught and
fallen through), then the inline style element, then the hosted fetch with
an empty-string fallback.  Total: stylesheet acquisition cannot fail. -/
def getCssText (embedded : Option SelfModules) (inlineCss : Option Str) (f : FetchOracle) : Str :=
  match readEmbeddedSelfModules embedded with
  | some m =>
    if m.cssBase64 ≠ [] then
      match decodeBase64 m.cssBase64 with
      | some t => t
      | none => cssInlineOr inlineCss f
    else cssInlineOr inlineCss f
  | none => cssInlineOr inlineCss f

/-- One step of the warm strategy's decoding loop, combining the entry of
one listed path with the collection of the remaining paths: a missing entry
is skipped, a `decodeBase64` throw aborts the whole collection, a decoded
entry is recorded under its path. -/
def decodeManifestStep (p : Str) (entry : Option Str)
    (tail : Except JsErr (List (Str × Str))) : Except JsErr (List (Str × Str)) :=
  match entry with
  | none => tail
  | some b64 =>
    match decodeBase64 b64 with
    | none => .error .decodeFailure
    | some txt => tail.map ((p, txt) :: ·)

/-- The warm strategy's decoding loop over the manifest's listed paths. -/
def decodeManifestEntries : List Str → List (Str × Str) → Except JsErr (List (Str × Str))
  | [], _ => .ok []
  | p :: rest, fb => decodeManifestStep p (lookupA p fb) (decodeManifestEntries rest fb)

/-- `'./' + p`. -/
def dotSlash (p : Str) : Str := '.' :: '/' :: p

/-- One step of the cold strategy: the fetch result of one module combined
with the collection of the remaining ones — a failed fetch rejects the
whole collection. -/
def fetchStep (p : Str) (r : Except JsErr Str) (tail : Except JsErr (List (Str × Str))) :
    Except JsErr (List (Str × Str)) :=
  match r with
  | .error e => .error e
  | .ok t => tail.map ((p, t) :: ·)

/-- The cold strategy: fetch every module (`Promise.all`, modelled with the
first failure in list order rejecting the collection). -/
def fetchAll : List Str → FetchOracle → Except JsErr (List (Str × Str))
  | [], _ => .ok []
  | p :: rest, f => fetchStep p (fetchText f (dotSlash p)) (fetchAll rest f)

/-- `collectModuleRawSources()`: warm strategy whenever a manifest is
present, cold strategy (fetch all of `MODULE_PATHS`) otherwise. -/
def collectModuleRawSources (embedded : Option SelfModules) (f : FetchOracle) :
    Except JsErr (List (Str × Str) × List Str) :=
  match readEmbeddedSelfModules embedded with
  | some m =>
    match decodeManifestEntries m.list m.filesBase64 with
    | .ok srcs => .ok (srcs, m.list)
    | .error e => .error e
  | none =>
    match fetchAll MODULE_PATHS f with
    | .ok srcs => .ok (srcs, MODULE_PATHS)
    | .error e => .error e

/-! ## Import map construction -/

/-- `toDataUrlJavascript(code)`. -/
def toDataUrlJavascript (code : Str) : Str :=
  "data:text/javascript;base64,".data ++ encodeBase64 code

/-- The output of `buildImportMapFromSources`: the `importMap.imports`
entries and the rewritten sources, both keyed by virtual identifier. -/
structure BuildOutput where
  importMapImports : List (Str × Str)
  rewrittenSources : List (Str × Str)

/-- `buildImportMapFromSources(rawSources)`: rewrite each module and register
it under `__m__/<path>`, as a data: URL in the import map and as text in
`rewrittenSources`. -/
def buildImportMapFromSources (rawSources : List (Str × Str)) : BuildOutput :=
  { importMapImports :=
      rawSources.map
        (fun pc => (virtualOf pc.1, toDataUrlJavascript (rewriteImportsToVirtual pc.1 pc.2)))
    rewrittenSources :=
      rawSources.map (fun pc => (virtualOf pc.1, rewriteImportsToVirtual pc.1 pc.2)) }

/-! ## Title sanitizer -/

/-- `sanitizeTitleForHtml(title)`: default `'diagram'` when the title is
nullish, then `s.replace(/[&<>"]/g, (c) => ...)` with the source's
replacement map — which maps each of the four characters to itself, so the
replacement leaves the string unchanged (transcribed faithfully). -/
def sanitizeTitleForHtml (title : Option Str) : Str :=
  (match title with
   | none => "diagram".data
   | some t => t).flatMap
    (fun c =>
      if c = '&' then ['&']
      else if c = '<' then ['<']
      else if c = '>' then ['>']
      else if c = '"' then ['"']
      else [c])

/-! ## Document assembly

`buildStandaloneHtml` serializes two JSON payloads with `JSON.stringify`
(modelled below for the payload shapes that occur: objects of strings,
arrays of strings) and splices them, script-escaped, into a fixed template.
-/

/-- Lowercase hex digit. -/
def hexDigit (n : Nat) : Char := "0123456789abcdef".data.getD n '0'

/-- `JSON.stringify` escaping of one character inside a string literal. -/
def jsonEscChar (c : Char) : Str :=
  if c = '"' then ['\\', '"']
  else if c = '\\' then ['\\', '\\']
  else if c = '\x08' then ['\\', 'b']
  else if c = '\t' then ['\\', 't']
  else if c = '\n' then ['\\', 'n']
  else if c = '\x0c' then ['\\', 'f']
  else if c = '\r' then ['\\', 'r']
  else if c.toNat < 32 then ['\\', 'u', '0', '0', hexDigit (c.toNat / 16), hexDigit (c.toNat % 16)]
  else [c]

/-- `JSON.stringify` of a string. -/
def jsonString (s : Str) : Str := '"' :: s.flatMap jsonEscChar ++ ['"']

/-- Comma-joined JSON items. -/
def jsonCommaList (items : List Str) : Str := (items.intersperse [',']).flatten

/-- `JSON.stringify` of an object whose values are strings (insertion
order). -/
def jsonStrObject (entries : List (Str × Str)) : Str :=
  '\x7b' :: jsonCommaList (entries.map (fun kv => jsonString kv.1 ++ ':' :: jsonString kv.2)) ++
    ['\x7d']

/-- `JSON.stringify` of an array of strings. -/
def jsonStrArray (items : List Str) : Str :=
  '[' :: jsonCommaList (items.map jsonString) ++ [']']

/-- `JSON.stringify(importMap, null, 0)` where `importMap = { imports }`. -/
def importMapJsonOf (imports : List (Str × Str)) : Str :=
  '\x7b' :: jsonString "imports".data ++ ':' :: jsonStrObject imports ++ ['\x7d']

/-- JS `Array.prototype.sort`'s default string order (code-unit-wise; all
keys sorted here are ASCII module paths, where it coincides with scalar
order). -/
def lexLe : Str → Str → Bool
  | [], _ => true
  | _ :: _, [] => false
  | a :: as, b :: bs => if a = b then lexLe as bs else decide (a.toNat < b.toNat)

/-- Sorted insertion for `sortStrings`. -/
def insertLex (x : Str) : List Str → List Str
  | [] => [x]
  | y :: ys => if lexLe x y then x :: y :: ys else y :: insertLex x ys

/-- `Object.keys(...).sort()`. -/
def sortStrings (l : List Str) : List Str := l.foldr insertLex []

/-- The `selfModulesPayload` of `buildStandaloneHtml`, already
`JSON.stringify`ed: base64 sources keyed by sorted path, the sorted list,
and the optional library/stylesheet entries (`''` when their text is
falsy). -/
def selfModulesPayloadJson (embeddedRawModules : List (Str × Str))
    (html2canvasCode cssSafe : Str) : Str :=
  '\x7b' :: jsonString "filesBase64".data ++ ':' ::
    jsonStrObject
      ((sortStrings (embeddedRawModules.map Prod.fst)).map
        (fun p => (p, encodeBase64 ((lookupA p embeddedRawModules).getD [])))) ++
  ',' :: jsonString "list".data ++ ':' ::
    jsonStrArray (sortStrings (embeddedRawModules.map Prod.fst)) ++
  ',' :: jsonString "html2canvasBase64".data ++ ':' ::
    jsonString (if html2canvasCode ≠ [] then encodeBase64 html2canvasCode else []) ++
  ',' :: jsonString "cssBase64".data ++ ':' ::
    jsonString (if cssSafe ≠ [] then encodeBase64 cssSafe else []) ++ ['\x7d']

/-- The text placed inside the `initial-diagram` script element:
`escapeForScriptTag(initialJson || '\x7b\x7d')`. -/
def initialDiagramScriptText (initialJson : Str) : Str :=
  escapeForScriptTag (if initialJson ≠ [] then initialJson else ['\x7b', '\x7d'])

/-- The text placed inside the `__SELF_MODULES__` script element:
`escapeForScriptTag(JSON.stringify(selfModulesPayload))`. -/
def selfModulesScriptText (embeddedRawModules : List (Str × Str))
    (html2canvasCode cssSafe : Str) : Str :=
  escapeForScriptTag (selfModulesPayloadJson embeddedRawModules html2canvasCode cssSafe)

/-- `title || b` (JS falsy: nullish or empty string). -/
def jsOrStr (a : Option Str) (b : Str) : Str :=
  match a with
  | some t => if t ≠ [] then t else b
  | none => b
/-- Literal run of the standalone-HTML template (before the title). -/
def htmlTemplateA : Str :=
  "<!doctype html>\n<html lang=\"en\">\n  <head>\n    <meta charset=\"utf-8\" />\n    <title>".data

/-- Literal run of the standalone-HTML template (between title and stylesheet text). -/
def htmlTemplateB : Str :=
  " - Data Flow Designer</title>\n    <meta name=\"viewport\" content=\"width=device-width, initial-scale=1\" />\n    <style id=\"__INLINE_CSS__\">\n".data

/-- Literal run of the standalone-HTML template (between stylesheet and the embedded diagram payload). -/
def htmlTemplateC : Str :=
  "\n    </style>\n  </head>\n  <body>\n    <div id=\"app\">\n      <header class=\"topbar\">\n        <div class=\"brand\">Data Flow Designer</div>\n        <button id=\"btnAbout\" title=\"About\" aria-label=\"About\">\u00e2\u201c\u02dc</button>\n        <div class=\"diagram-title-container\">\n          <input type=\"text\" id=\"diagramTitle\" class=\"diagram-title\" placeholder=\"Untitled diagram\" />\n        </div>\n        <div class=\"actions\">\n          <button id=\"btnNewApi\" title=\"Add API endpoint\">+ API</button>\n          <button id=\"btnNewTable\" title=\"Add Postgres table\">+ Table</button>\n          <button id=\"btnNewModule\" title=\"Add Module\">+ Module</button>\n          <span class=\"sep\"></span>\n          <button id=\"btnNewDiagram\" title=\"Start a new blank diagram\">New</button>\n          <button id=\"btnImport\" title=\"Import diagram JSON\">Import</button>\n          <span class=\"sep\"></span>\n          <button id=\"btnExport\" title=\"Export diagram to JSON\">Export</button>\n          <button id=\"btnExportPng\" title=\"Export visible canvas to PNG\">Export PNG</button>\n          <button id=\"btnExportHtml\" title=\"Export as Offline HTML\">Export HTML</button>\n        </div>\n      </header>\n\n      <div class=\"main\">\n        <div class=\"canvas-wrap\">\n          <div id=\"canvas\" class=\"canvas\">\n            <!-- Content is transformed by pan/zoom -->\n            <div id=\"content\" class=\"content\" data-width=\"4000\" data-height=\"3000\">\n              <!-- SVG edges underneath nodes -->\n              <svg id=\"edges\" class=\"edges\" width=\"4000\" height=\"3000\" viewBox=\"0 0 4000 3000\" xmlns=\"http://www.w3.org/2000/svg\" aria-hidden=\"true\"></svg>\n              <div id=\"nodes\" class=\"nodes\" role=\"region\" aria-label=\"Nodes\"></div>\n              <svg id=\"edgesOverlay\" class=\"edges-overlay\" width=\"4000\" height=\"3000\" viewBox=\"0 0 4000 3000\" xmlns=\"http://www.w3.org/2000/svg\" aria-hidden=\"true\"></svg>\n            </div>\n          </div>\n        </div>\n\n        <aside class=\"inspector\" id=\"inspector\">\n          <div id=\"inspectorBody\">\n            <p>Select a node, variable, or edge to edit details.</p>\n          </div>\n          <div id=\"inspectorFooter\" class=\"inspector-footer\">\n            <label class=\"inspector-toggle\">\n              <input type=\"checkbox\" id=\"toggleShowTypes\" checked />\n              <span>Show variable types</span>\n            </label>\n          </div>\n        </aside>\n      </div>\n    </div>\n\n    <input type=\"file\" id=\"fileInput\" accept=\"application/json\" style=\"display:none\" />\n\n    <!-- About Modal -->\n    <div id=\"aboutDialog\" class=\"about-dialog hidden\" role=\"dialog\" aria-modal=\"true\" aria-labelledby=\"aboutTitle\">\n      <div class=\"dialog-overlay\">\n        <div class=\"dialog-content\" role=\"document\">\n          <h3 id=\"aboutTitle\">About Data Flow Designer</h3>\n          <p style=\"margin: 0 0 12px 0;\">Visual tool for building and sharing data flow diagrams.</p>\n          <ul style=\"margin: 0 0 16px 18px; line-height: 1.6;\">\n            <li>Author: <a href=\"https://github.com/nobody-qwert\" target=\"_blank\" rel=\"noopener\">nobody-qwert</a></li>\n            <li>Repository: <a href=\"https://github.com/nobody-qwert/stack-flow\" target=\"_blank\" rel=\"noopener\">stack-flow</a></li>\n            <li>Discussions: <a href=\"https://github.com/nobody-qwert/stack-flow/discussions\" target=\"_blank\" rel=\"noopener\">Open a discussion</a></li>\n            <li>License: <a href=\"./LICENSE\" target=\"_blank\" rel=\"noopener\">PolyForm Noncommercial 1.0.0</a></li>\n          </ul>\n          <div class=\"dialog-actions\">\n            <button id=\"aboutCloseBtn\" class=\"primary\">Close</button>\n          </div>\n        </div>\n      </div>\n    </div>\n\n    <!-- Embedded initial diagram -->\n    <script id=\"initial-diagram\" type=\"application/json\">".data

/-- Literal run of the standalone-HTML template (between the diagram payload and the source manifest payload). -/
def htmlTemplateD : Str :=
  "</script>\n\n    <!-- Embedded raw module sources (base64) for offline re-export -->\n    <script id=\"__SELF_MODULES__\" type=\"application/json\">".data

/-- Literal run of the standalone-HTML template (between the manifest payload and the import map). -/
def htmlTemplateE : Str :=
  "</script>\n\n    <!-- Import map with data: URLs -->\n    <script type=\"importmap\">\n".data

/-- Literal run of the standalone-HTML template (between the import map and the inlined library). -/
def htmlTemplateF : Str :=
  "\n    </script>\n\n    <!-- Inline html2canvas for offline PNG export -->\n    <script>\n".data

/-- Literal run of the standalone-HTML template (after the inlined library: the bootstrap script and document close). -/
def htmlTemplateG : Str :=
  "\n//# sourceURL=html2canvas.inline.js\n    </script>\n\n    <!-- Bootstrap: seed localStorage and start app -->\n    <script type=\"module\">\n      (function() \x7b\n        try \x7b\n          const key = \x27dataFlowDiagram\x27;\n          if (!localStorage.getItem(key)) \x7b\n            const el = document.getElementById(\x27initial-diagram\x27);\n            if (el && el.textContent) \x7b\n              localStorage.setItem(key, el.textContent);\n              localStorage.setItem(key + \x27_timestamp\x27, Date.now().toString());\n            \x7d\n          \x7d\n        \x7d catch (e) \x7b\n          console.warn(\x27Failed to seed localStorage from embedded diagram:\x27, e);\n        \x7d\n        // Start app\n        import(\x27__m__/src/app.js\x27);\n      \x7d)();\n    </script>\n  </body>\n</html>".data

/-- `buildStandaloneHtml(...)`: splice the sanitized title, stylesheet,
script-escaped diagram payload, script-escaped source manifest, import map
JSON and library code into the fixed template. -/
def buildStandaloneHtml (title : Option Str) (cssText : Str) (initialJson : Str)
    (importMapImports : List (Str × Str)) (html2canvasCode : Str)
    (embeddedRawModules : List (Str × Str)) : Str :=
  htmlTemplateA ++ sanitizeTitleForHtml (some (jsOrStr title "Untitled diagram".data)) ++
  htmlTemplateB ++ cssText ++
  htmlTemplateC ++ initialDiagramScriptText initialJson ++
  htmlTemplateD ++ selfModulesScriptText embeddedRawModules html2canvasCode cssText ++
  htmlTemplateE ++ importMapJsonOf importMapImports ++
  htmlTemplateF ++ (if html2canvasCode ≠ [] then html2canvasCode else []) ++
  htmlTemplateG

/-! ## Delivery -/

/-- JS `String.prototype.trim` (ASCII whitespace suffices here). -/
def jsTrim (s : Str) : Str :=
  ((s.dropWhile jsSpace).reverse.dropWhile jsSpace).reverse

/-- A character the filename slug keeps: `[a-z0-9._-]`. -/
def slugChar (c : Char) : Bool :=
  (decide ('a' ≤ c) && decide (c ≤ 'z')) || (decide ('0' ≤ c) && decide (c ≤ '9')) ||
    c = '.' || c = '_' || c = '-'

/-- The scan of `replace(/[^a-z0-9._-]+/g, '-')`: each maximal run of
excluded characters becomes one dash (fuel as in `replaceScriptFuel`). -/
def collapseNonSlugFuel : Nat → Str → Str
  | 0, s => s
  | _ + 1, [] => []
  | fuel + 1, c :: rest =>
    if slugChar c then c :: collapseNonSlugFuel fuel rest
    else '-' :: collapseNonSlugFuel fuel (rest.dropWhile (fun x => !slugChar x))

/-- `replace(/[^a-z0-9._-]+/g, '-')`. -/
def collapseNonSlug (s : Str) : Str := collapseNonSlugFuel s.length s

/-- `replace(/^-+|-+$/g, '')`. -/
def trimDashes (s : Str) : Str :=
  ((s.dropWhile (· = '-')).reverse.dropWhile (· = '-')).reverse

/-- The title-derived filename:
`(title || 'diagram').toLowerCase().replace(/[^a-z0-9._-]+/g, '-').replace(/^-+|-+$/g, '') + '.html'`. -/
def slugFileName (title : Option Str) : Str :=
  trimDashes (collapseNonSlug ((jsOrStr title "diagram".data).map Char.toLower)) ++ ".html".data

/-- The `safeName` computation of `exportStandaloneHtml`:
`(filename && filename.trim()) || (slug + '.html') || 'diagram.html'` — the
final `'diagram.html'` alternative is unreachable because the slug always
ends in `.html`. -/
def safeFileName (filename : Str) (title : Option Str) : Str :=
  if filename ≠ [] ∧ jsTrim filename ≠ [] then jsTrim filename
  else slugFileName title

/-- The browser-level inputs of one export run: the parsed
`__SELF_MODULES__` element (if any), the `__INLINE_CSS__` element text (if
any), the network, `exportDiagram(false)`'s serialized diagram, and
`store.getState()?.diagram?.title`. -/
structure Env where
  embedded : Option SelfModules
  inlineCss : Option Str
  fetch : FetchOracle
  diagramJson : Str
  storeTitle : Option Str

/-- `exportStandaloneHtml(filename)`: collect the diagram JSON, the
stylesheet, the module sources and the library, build the import map and
the document, and deliver it (`downloadBlob`, modelled as returning the
(html, safeName) pair).  Any uncaught failure rejects before delivery. -/
def exportStandaloneHtml (env : Env) (filename : Str := "diagram.html".data) :
    Except JsErr (Str × Str) :=
  match collectModuleRawSources env.embedded env.fetch with
  | .error e => .error e
  | .ok (rawSources, _list) =>
    match getHtml2CanvasCode env.embedded env.fetch with
    | .error e => .error e
    | .ok html2canvasCode =>
      .ok (buildStandaloneHtml (some (jsOrStr env.storeTitle "diagram".data))
             (getCssText env.embedded env.inlineCss env.fetch) env.diagramJson
             (buildImportMapFromSources rawSources).importMapImports html2canvasCode rawSources,
           safeFileName filename (some (jsOrStr env.storeTitle "diagram".data)))

/-! ## Path resolver lemmas -/

/-- `split('/')` never yields an empty list of segments. -/
theorem splitSlash_ne_nil (l : Str) : splitSlash l ≠ [] := by
  cases l with
  | nil => simp [splitSlash]
  | cons c rest =>
    simp only [splitSlash]
    split
    · simp
    · split <;> simp

/-- Splitting distributes over a separating slash. -/
theorem splitSlash_append (xs ys : Str) :
    splitSlash (xs ++ '/' :: ys) = splitSlash xs ++ splitSlash ys := by
  induction xs with
  | nil => simp [splitSlash]
  | cons c rest ih =>
    by_cases hc : c = '/'
    · subst hc
      simp [splitSlash, ih]
    · obtain ⟨s, ss, hss⟩ : ∃ s ss, splitSlash rest = s :: ss := by
        cases h : splitSlash rest with
        | nil => exact absurd h (splitSlash_ne_nil rest)
        | cons s ss => exact ⟨s, ss, rfl⟩
      have h1 : splitSlash ((c :: rest) ++ '/' :: ys) =
          match splitSlash (rest ++ '/' :: ys) with
          | [] => [[c]]
          | s :: ss => (c :: s) :: ss := by
        simp [splitSlash, hc]
      have h2 : splitSlash (c :: rest) = (c :: s) :: ss := by
        simp [splitSlash, hc, hss]
      rw [h1, ih, hss, h2]
      simp

/-- C1.  The spec requires the title to be HTML-escaped (`&` `<` `>` `"` to
their entities) before being embedded in the document head, and the
sanitizer's own comment says "Properly escape special characters for HTML
context" — but its replacement map sends each of the four characters to
itself, so the concrete title `My <Diagram> & "Co"` passes through
unchanged instead of becoming `My &lt;Diagram&gt; &amp; &quot;Co&quot;`. -/
theorem c1_sanitize_is_identity :
    sanitizeTitleForHtml (some "My <Diagram> & \"Co\"".data) = "My <Diagram> & \"Co\"".data ∧
      "My <Diagram> & \"Co\"".data ≠ "My &lt;Diagram&gt; &amp; &quot;Co&quot;".data := by
  constructor
  · decide
  · decide

/-- C2, counterexample.  The claim says a specifier whose `..` segments
ascend above the virtual root makes the resolver fail fatally and that the
path is never silently clamped; but resolving `../../../outside.js` against
`src/app.js` (one directory deep, three ascents) yields the root-clamped
path `outside.js` — a normal return, no failure. -/
theorem c2_ascent_is_clamped :
    resolveRelative "src/app.js".data "../../../outside.js".data = "outside.js".data := by
  decide

/-- C2, amended.  `normalizePath` silently clamps at the virtual root: a
`..` segment arriving with no collected segments to pop is dropped, so a
leading `../` never changes the result and never raises an error. -/
theorem c2_root_clamp (p : Str) :
    normalizePath ('.' :: '.' :: '/' :: p) = normalizePath p := by
  have h : splitSlash ('.' :: '.' :: '/' :: p) = ['.', '.'] :: splitSlash p := by
    simp [splitSlash]
  simp [normalizePath, h, normStep]

/-- C9, counterexample.  The claim says resolving an already-normalized
path against `.` yields the path itself; but specifiers resolve against the
path's directory, so `src/app.js` against `.` yields `src`, not
`src/app.js`. -/
theorem c9_dot_resolves_to_dir :
    resolveRelative "src/app.js".data ['.'] = "src".data ∧
      "src".data ≠ "src/app.js".data := by
  constructor
  · decide
  · decide

/-- C9, amended.  For every module path `p` (normalized or not), resolving
`p` against the specifier `.` yields the normalized directory of `p`
(`normalizePath (dirname p)`), not `p` itself. -/
theorem c9_resolve_dot_eq_dirname (p : Str) :
    resolveRelative p ['.'] = normalizePath (dirname p) := by
  show normalizePath ((if dirname p ≠ [] then dirname p ++ ['/'] else []) ++ ['.']) =
    normalizePath (dirname p)
  by_cases hd : dirname p = []
  · simp [hd, normalizePath, splitSlash, normStep, joinSlash]
  · rw [if_pos hd, List.append_assoc]
    show normalizePath (dirname p ++ '/' :: ['.']) = normalizePath (dirname p)
    simp [normalizePath, splitSlash_append, splitSlash, List.foldl_append, normStep]

/-- C4, counterexample.  The claim says a non-relative (bare) specifier
surfaces a hard configuration error at bundling time and is not passed
through into a produced artifact; but bundling the single module
`src/app.js` whose source imports from the bare specifier `lodash`
completes normally, the rewritten source is the input unchanged (the bare
specifier intact), and a full export over an environment serving that
source delivers an artifact. -/
theorem c4_bare_import_passes_through :
    (buildImportMapFromSources
        [("src/app.js".data, "import \x7b x \x7d from \"lodash\";".data)]).rewrittenSources =
      [("__m__/src/app.js".data, "import \x7b x \x7d from \"lodash\";".data)] ∧
    (exportStandaloneHtml
        ⟨none, none, fun _ => Except.ok "import \x7b x \x7d from \"lodash\";".data,
         "\x7b\x7d".data, none⟩).isOk = true := by
  constructor
  · decide
  · decide

/-- C4, amended.  A bare specifier is left untouched and silently flows on:
for every module path, the rewriter returns a source importing from
`lodash` verbatim — no configuration error exists in the bundling path. -/
theorem c4_bare_import_untouched (srcPath : Str) :
    rewriteImportsToVirtual srcPath "import \x7b x \x7d from \"lodash\";".data =
      "import \x7b x \x7d from \"lodash\";".data := rfl

/-- C5, counterexample.  The claim says every virtual identifier referenced
by a rewritten source is a key of the produced import mapping and that any
violation is detected before an artifact is emitted; but for the module
list `[src/app.js]` whose only module imports `./missing.js`, the rewritten
source references `__m__/src/missing.js`, the mapping's only key is
`__m__/src/app.js`, and no failure is raised — the closure violation goes
undetected. -/
theorem c5_closure_violation_undetected :
    (buildImportMapFromSources
        [("src/app.js".data, "import \x7b f \x7d from \x27./missing.js\x27;".data)]).rewrittenSources =
      [("__m__/src/app.js".data,
        "import \x7b f \x7d from \x27__m__/src/missing.js\x27;".data)] ∧
    List.IsInfix "__m__/src/missing.js".data
      "import \x7b f \x7d from \x27__m__/src/missing.js\x27;".data ∧
    (buildImportMapFromSources
        [("src/app.js".data, "import \x7b f \x7d from \x27./missing.js\x27;".data)]).importMapImports.map
        Prod.fst = ["__m__/src/app.js".data] ∧
    "__m__/src/missing.js".data ≠ "__m__/src/app.js".data := by
  refine ⟨by decide, by decide, by decide, by decide⟩

/-- C5, amended.  The import mapping's keys are exactly the virtual
identifiers of the listed modules, in list order; no closure validation of
the rewritten sources' import targets against those keys is performed
anywhere before the artifact is emitted. -/
theorem c5_import_map_keys (rawSources : List (Str × Str)) :
    (buildImportMapFromSources rawSources).importMapImports.map Prod.fst =
      rawSources.map (fun pc => virtualOf pc.1) := by
  simp [buildImportMapFromSources]

/-! ## Codec lemmas (claim C6) -/

/-- The alphabet inverts the digit map on sextet values. -/
theorem b64Index_b64Char (n : Nat) (h : n < 64) : b64Index (b64Char n) = some n := by
  revert h
  revert n
  decide

/-- No sextet value maps to the padding character. -/
theorem b64Char_ne_pad (n : Nat) : b64Char n ≠ '=' := by
  by_cases h : n < 64
  · revert h
    revert n
    decide
  · unfold b64Char
    rw [List.getD_eq_default]
    · decide
    · have hlen : b64Alphabet.length = 64 := by decide
      omega

/-- `atob` inverts `btoa` on byte sequences. -/
theorem b64_roundtrip : ∀ bs : List Nat, (∀ b ∈ bs, b < 256) →
    b64Decode (b64Encode bs) = some bs
  | [], _ => rfl
  | [a], h => by
    have ha : a < 256 := h a (by simp)
    rw [show b64Encode [a] = [b64Char (a / 4), b64Char (a % 4 * 16), '=', '='] from rfl]
    rw [b64Decode]
    rw [if_pos rfl, if_pos (And.intro rfl rfl)]
    rw [b64Index_b64Char _ (by omega), b64Index_b64Char _ (by omega)]
    simp only [Option.some.injEq, List.cons.injEq, and_true]
    omega
  | [a, b], h => by
    have ha : a < 256 := h a (by simp)
    have hb : b < 256 := h b (by simp)
    rw [show b64Encode [a, b] =
      [b64Char (a / 4), b64Char (a % 4 * 16 + b / 16), b64Char (b % 16 * 4), '='] from rfl]
    rw [b64Decode]
    rw [if_neg (b64Char_ne_pad _), if_pos rfl, if_pos rfl]
    rw [b64Index_b64Char _ (by omega), b64Index_b64Char _ (by omega),
      b64Index_b64Char _ (by omega)]
    simp only [Option.some.injEq, List.cons.injEq, and_true]
    omega
  | a :: b :: c :: rest, h => by
    have ha : a < 256 := h a (by simp)
    have hb : b < 256 := h b (by simp)
    have hc : c < 256 := h c (by simp)
    have ih := b64_roundtrip rest (fun x hx => h x (by simp [hx]))
    rw [show b64Encode (a :: b :: c :: rest) =
      b64Char (a / 4) :: b64Char (a % 4 * 16 + b / 16) :: b64Char (b % 16 * 4 + c / 64) ::
        b64Char (c % 64) :: b64Encode rest from rfl]
    rw [b64Decode]
    rw [if_neg (b64Char_ne_pad _), if_neg (b64Char_ne_pad _)]
    rw [b64Index_b64Char _ (by omega), b64Index_b64Char _ (by omega),
      b64Index_b64Char _ (by omega), b64Index_b64Char _ (by omega)]
    rw [ih]
    simp only [Option.map_some', Option.some.injEq, List.cons.injEq]
    refine ⟨by omega, by omega, by omega, trivial⟩

/-- Every byte the UTF-8 encoder emits for an in-range scalar fits a byte. -/
theorem utf8EncodeChar_bytes_lt (c : Nat) (h : c < 0x110000) :
    ∀ b ∈ utf8EncodeChar c, b < 256 := by
  intro b hb
  unfold utf8EncodeChar at hb
  split_ifs at hb with h1 h2 h3
  all_goals simp only [List.mem_cons, List.not_mem_nil, or_false] at hb
  all_goals omega

/-- Decoding one character off an encoded character recovers it together
with the untouched remainder. -/
theorem utf8DecodeOne_encodeChar (c : Nat) (hv : Nat.isValidChar c) (bs : List Nat) :
    utf8DecodeOne (utf8EncodeChar c ++ bs) = some (c, bs) := by
  have hrange : c < 0xd800 ∨ (0xdfff < c ∧ c < 0x110000) := hv
  by_cases h1 : c < 0x80
  · rw [show utf8EncodeChar c = [c] from by unfold utf8EncodeChar; rw [if_pos h1]]
    rw [List.cons_append, List.nil_append, utf8DecodeOne.eq_def]
    simp only [if_pos h1]
  · by_cases h2 : c < 0x800
    · rw [show utf8EncodeChar c = [0xC0 + c / 64, 0x80 + c % 64] from by
        unfold utf8EncodeChar; rw [if_neg h1, if_pos h2]]
      rw [List.cons_append, List.cons_append, List.nil_append, utf8DecodeOne.eq_def]
      have e1 : ¬ (0xC0 + c / 64 < 0x80) := by omega
      have e2 : ¬ (0xC0 + c / 64 < 0xC0) := by omega
      have e3 : 0xC0 + c / 64 < 0xE0 := by omega
      have e4 : 0x80 ≤ 0x80 + c % 64 ∧ 0x80 + c % 64 < 0xC0 := by omega
      have e5 : 0x80 ≤ (0xC0 + c / 64 - 0xC0) * 64 + (0x80 + c % 64 - 0x80) := by omega
      simp only [if_neg e1, if_neg e2, if_pos e3, utf8Dec2, if_pos e4, if_pos e5,
        Option.map_some', Option.some.injEq, Prod.mk.injEq, and_true]
      omega
    · by_cases h3 : c < 0x10000
      · rw [show utf8EncodeChar c = [0xE0 + c / 4096, 0x80 + c / 64 % 64, 0x80 + c % 64] from by
          unfold utf8EncodeChar; rw [if_neg h1, if_neg h2, if_pos h3]]
        rw [List.cons_append, List.cons_append, List.cons_append, List.nil_append,
          utf8DecodeOne.eq_def]
        have e1 : ¬ (0xE0 + c / 4096 < 0x80) := by omega
        have e2 : ¬ (0xE0 + c / 4096 < 0xC0) := by omega
        have e3 : ¬ (0xE0 + c / 4096 < 0xE0) := by omega
        have e4 : 0xE0 + c / 4096 < 0xF0 := by omega
        have e5 : (0x80 ≤ 0x80 + c / 64 % 64 ∧ 0x80 + c / 64 % 64 < 0xC0) ∧
            (0x80 ≤ 0x80 + c % 64 ∧ 0x80 + c % 64 < 0xC0) := by omega
        have e6 : 0x800 ≤ (0xE0 + c / 4096 - 0xE0) * 4096 + (0x80 + c / 64 % 64 - 0x80) * 64 +
              (0x80 + c % 64 - 0x80) ∧
            ((0xE0 + c / 4096 - 0xE0) * 4096 + (0x80 + c / 64 % 64 - 0x80) * 64 +
              (0x80 + c % 64 - 0x80) < 0xD800 ∨
             0xE000 ≤ (0xE0 + c / 4096 - 0xE0) * 4096 + (0x80 + c / 64 % 64 - 0x80) * 64 +
              (0x80 + c % 64 - 0x80)) := by omega
        simp only [if_neg e1, if_neg e2, if_neg e3, if_pos e4, utf8Dec3, if_pos e5, if_pos e6,
          Option.map_some', Option.some.injEq, Prod.mk.injEq, and_true]
        omega
      · rw [show utf8EncodeChar c =
            [0xF0 + c / 262144, 0x80 + c / 4096 % 64, 0x80 + c / 64 % 64, 0x80 + c % 64] from by
          unfold utf8EncodeChar; rw [if_neg h1, if_neg h2, if_neg h3]]
        rw [List.cons_append, List.cons_append, List.cons_append, List.cons_append,
          List.nil_append, utf8DecodeOne.eq_def]
        have e1 : ¬ (0xF0 + c / 262144 < 0x80) := by omega
        have e2 : ¬ (0xF0 + c / 262144 < 0xC0) := by omega
        have e3 : ¬ (0xF0 + c / 262144 < 0xE0) := by omega
        have e4 : ¬ (0xF0 + c / 262144 < 0xF0) := by omega
        have e5 : 0xF0 + c / 262144 < 0xF8 := by omega
        have e6 : (0x80 ≤ 0x80 + c / 4096 % 64 ∧ 0x80 + c / 4096 % 64 < 0xC0) ∧
            (0x80 ≤ 0x80 + c / 64 % 64 ∧ 0x80 + c / 64 % 64 < 0xC0) ∧
            (0x80 ≤ 0x80 + c % 64 ∧ 0x80 + c % 64 < 0xC0) := by omega
        have e7 : 0x10000 ≤ (0xF0 + c / 262144 - 0xF0) * 262144 +
              (0x80 + c / 4096 % 64 - 0x80) * 4096 + (0x80 + c / 64 % 64 - 0x80) * 64 +
              (0x80 + c % 64 - 0x80) ∧
            (0xF0 + c / 262144 - 0xF0) * 262144 + (0x80 + c / 4096 % 64 - 0x80) * 4096 +
              (0x80 + c / 64 % 64 - 0x80) * 64 + (0x80 + c % 64 - 0x80) < 0x110000 := by omega
        simp only [if_neg e1, if_neg e2, if_neg e3, if_neg e4, if_pos e5, utf8Dec4, if_pos e6,
          if_pos e7, Option.map_some', Option.some.injEq, Prod.mk.injEq, and_true]
        omega

/-- The encoder never emits an empty byte sequence. -/
theorem utf8EncodeChar_ne_nil (c : Nat) : utf8EncodeChar c ≠ [] := by
  unfold utf8EncodeChar
  split_ifs <;> simp

/-- The decoding loop inverts the encoder given enough fuel. -/
theorem utf8DecodeLoop_encode (s : Str) :
    ∀ fuel, (utf8Encode s).length ≤ fuel →
      utf8DecodeLoop fuel (utf8Encode s) = some (s.map Char.toNat) := by
  induction s with
  | nil =>
    intro fuel _
    rw [show utf8Encode [] = [] from rfl]
    cases fuel <;> rfl
  | cons ch s' ih =>
    intro fuel hfuel
    have hE : utf8Encode (ch :: s') = utf8EncodeChar ch.toNat ++ utf8Encode s' := by
      simp [utf8Encode]
    rw [hE] at hfuel ⊢
    have hk : 1 ≤ (utf8EncodeChar ch.toNat).length := by
      cases h : utf8EncodeChar ch.toNat with
      | nil => exact absurd h (utf8EncodeChar_ne_nil _)
      | cons a l => simp
    obtain ⟨fuel', rfl⟩ : ∃ fuel', fuel = fuel' + 1 := by
      rw [List.length_append] at hfuel
      cases fuel with
      | zero => omega
      | succ n => exact ⟨n, rfl⟩
    cases hE2 : utf8EncodeChar ch.toNat ++ utf8Encode s' with
    | nil => exact absurd (List.append_eq_nil.mp hE2).1 (utf8EncodeChar_ne_nil _)
    | cons b rest =>
      rw [utf8DecodeLoop, ← hE2]
      rw [utf8DecodeOne_encodeChar ch.toNat ch.valid (utf8Encode s')]
      rw [Option.some_bind]
      rw [ih fuel' (by rw [List.length_append] at hfuel; omega)]
      rfl

/-- UTF-8 decoding inverts UTF-8 encoding. -/
theorem utf8Decode_encode (s : Str) : utf8Decode (utf8Encode s) = some (s.map Char.toNat) :=
  utf8DecodeLoop_encode s _ le_rfl

/-- Every byte of an encoded string fits a byte. -/
theorem utf8Encode_bytes_lt (s : Str) : ∀ b ∈ utf8Encode s, b < 256 := by
  intro b hb
  rw [utf8Encode, List.mem_flatMap] at hb
  obtain ⟨c, _, hbc⟩ := hb
  have he : c.toNat = c.val.toNat := rfl
  have hv := c.valid
  have hc : c.toNat < 0x110000 := by
    rcases hv with h | h
    · omega
    · omega
  exact utf8EncodeChar_bytes_lt c.toNat hc b hbc

/-- C6.  The manifest text codec round-trips: for every Unicode string
(every `List Char` — Lean characters are exactly the Unicode scalar values,
covering multi-byte characters, embedded quotes and script-closing
substrings), `decodeBase64 (encodeBase64 s) = some s`. -/
theorem c6_codec_roundtrip (s : Str) : decodeBase64 (encodeBase64 s) = some s := by
  rw [decodeBase64, encodeBase64]
  rw [b64_roundtrip (utf8Encode s) (utf8Encode_bytes_lt s)]
  rw [Option.some_bind, utf8Decode_encode]
  simp only [Option.map_some', Option.some.injEq, List.map_map]
  have : Char.ofNat ∘ Char.toNat = id := by
    funext c
    exact Char.ofNat_toNat c
  rw [this, List.map_id]

/-! ## Acquisition lemmas (claims C7, C8, C3) -/

/-- When every listed manifest entry decodes, the warm decoding loop
succeeds and records each listed path's decoded text. -/
theorem decodeManifestEntries_complete (fb : List (Str × Str)) :
    ∀ ps : List Str,
      (∀ p ∈ ps, ∀ b64, lookupA p fb = some b64 → (decodeBase64 b64).isSome = true) →
      ∃ srcs, decodeManifestEntries ps fb = Except.ok srcs ∧
        ∀ p b64, p ∈ ps → lookupA p fb = some b64 → lookupA p srcs = decodeBase64 b64
  | [], _ => ⟨[], rfl, by intro p b64 hp; simp at hp⟩
  | p0 :: ps, hc => by
    obtain ⟨srcs', h1, h2⟩ :=
      decodeManifestEntries_complete fb ps (fun p hp => hc p (List.mem_cons_of_mem _ hp))
    rw [decodeManifestEntries]
    cases hl : lookupA p0 fb with
    | none =>
      refine ⟨srcs', by rw [h1]; rfl, ?_⟩
      intro p b64 hp hlook
      rcases List.mem_cons.mp hp with rfl | hp'
      · rw [hl] at hlook
        cases hlook
      · exact h2 p b64 hp' hlook
    | some b0 =>
      have hd := hc p0 (by simp) b0 hl
      obtain ⟨d0, hd0⟩ := Option.isSome_iff_exists.mp hd
      refine ⟨(p0, d0) :: srcs', ?_, ?_⟩
      · rw [decodeManifestStep, hd0, h1]
        rfl
      · intro p b64 hp hlook
        by_cases hp0 : p = p0
        · subst hp0
          rw [hl] at hlook
          injection hlook with hb
          subst hb
          rw [lookupA, if_pos rfl, hd0]
        · rw [lookupA, if_neg hp0]
          rcases List.mem_cons.mp hp with h | h
          · exact absurd h hp0
          · exact h2 p b64 h hlook

/-- If any listed module's fetch fails, the whole cold collection rejects. -/
theorem fetchAll_error (f : FetchOracle) (p : Str) (e : JsErr)
    (hf : f (dotSlash p) = Except.error e) :
    ∀ ps : List Str, p ∈ ps → ∃ e2, fetchAll ps f = Except.error e2
  | [], hp => absurd hp (List.not_mem_nil p)
  | q :: rest, hp => by
    rw [fetchAll]
    cases hq : fetchText f (dotSlash q) with
    | error e2 => exact ⟨e2, rfl⟩
    | ok t =>
      have hpq : p ≠ q := by
        rintro rfl
        have hq2 : f (dotSlash p) = Except.ok t := hq
        rw [hf] at hq2
        cases hq2
      have hprest : p ∈ rest := by
        rcases List.mem_cons.mp hp with h | h
        · exact absurd h hpq
        · exact h
      obtain ⟨e2, h2⟩ := fetchAll_error f p e hf rest hprest
      exact ⟨e2, by rw [h2]; rfl⟩

/-- If every listed module's fetch succeeds, the cold collection succeeds. -/
theorem fetchAll_ok (f : FetchOracle) :
    ∀ ps : List Str, (∀ p ∈ ps, ∃ t, f (dotSlash p) = Except.ok t) →
      ∃ srcs, fetchAll ps f = Except.ok srcs
  | [], _ => ⟨[], rfl⟩
  | q :: rest, h => by
    obtain ⟨t, ht⟩ := h q (by simp)
    obtain ⟨srcs, hs⟩ := fetchAll_ok f rest (fun p hp => h p (by simp [hp]))
    have ht2 : fetchText f (dotSlash q) = Except.ok t := ht
    exact ⟨(q, t) :: srcs, by rw [fetchAll, ht2, hs]; rfl⟩

/-- C7.  With a source manifest present whose listed entries all decode,
acquisition is independent of the network (the same result under any two
fetch oracles — no fetch is attempted) and returns the decoded manifest
entry for every module in the manifest's list. -/
theorem c7_warm_manifest_no_fetch (m : SelfModules) (f g : FetchOracle)
    (hc : ∀ p ∈ m.list, ∀ b64, lookupA p m.filesBase64 = some b64 →
      (decodeBase64 b64).isSome = true) :
    collectModuleRawSources (some m) f = collectModuleRawSources (some m) g ∧
    ∃ sources, collectModuleRawSources (some m) f = Except.ok (sources, m.list) ∧
      ∀ p b64, p ∈ m.list → lookupA p m.filesBase64 = some b64 →
        lookupA p sources = decodeBase64 b64 := by
  constructor
  · rfl
  · obtain ⟨srcs, h1, h2⟩ := decodeManifestEntries_complete m.filesBase64 m.list hc
    refine ⟨srcs, ?_, h2⟩
    simp only [collectModuleRawSources, readEmbeddedSelfModules, h1]

/-- Witness for C7 at a concrete one-module manifest, a failing oracle and
a succeeding oracle. -/
theorem c7_warm_manifest_no_fetch_witness :
    collectModuleRawSources
        (some ⟨[("a.js".data, encodeBase64 "alpha".data)], ["a.js".data], [], []⟩)
        (fun _ => Except.error JsErr.fetchFailure) =
      collectModuleRawSources
        (some ⟨[("a.js".data, encodeBase64 "alpha".data)], ["a.js".data], [], []⟩)
        (fun _ => Except.ok "network".data) ∧
    ∃ sources, collectModuleRawSources
        (some ⟨[("a.js".data, encodeBase64 "alpha".data)], ["a.js".data], [], []⟩)
        (fun _ => Except.error JsErr.fetchFailure) = Except.ok (sources, ["a.js".data]) ∧
      ∀ p b64, p ∈ [("a.js".data)] →
        lookupA p [("a.js".data, encodeBase64 "alpha".data)] = some b64 →
        lookupA p sources = decodeBase64 b64 :=
  c7_warm_manifest_no_fetch ⟨[("a.js".data, encodeBase64 "alpha".data)], ["a.js".data], [], []⟩
    (fun _ => Except.error JsErr.fetchFailure) (fun _ => Except.ok "network".data)
    (by decide)

/-- C8.  Under the cold strategy (no manifest), if fetching any single
listed module fails, the whole export rejects: no (html, filename) pair is
delivered. -/
theorem c8_cold_fetch_failure_aborts (env : Env) (p : Str) (e : JsErr)
    (hemb : env.embedded = none) (hp : p ∈ MODULE_PATHS)
    (hf : env.fetch (dotSlash p) = Except.error e) :
    ∃ e2, exportStandaloneHtml env = Except.error e2 := by
  obtain ⟨e2, hcol⟩ := fetchAll_error env.fetch p e hf MODULE_PATHS hp
  refine ⟨e2, ?_⟩
  simp only [exportStandaloneHtml, collectModuleRawSources, readEmbeddedSelfModules, hemb, hcol]

/-- Witness for C8: an environment whose network always fails. -/
theorem c8_cold_fetch_failure_aborts_witness :
    ∃ e2, exportStandaloneHtml
        ⟨none, none, fun _ => Except.error JsErr.fetchFailure, "\x7b\x7d".data, none⟩ =
      Except.error e2 :=
  c8_cold_fetch_failure_aborts
    ⟨none, none, fun _ => Except.error JsErr.fetchFailure, "\x7b\x7d".data, none⟩
    "src/app.js".data JsErr.fetchFailure rfl (by decide) rfl

/-- C3, counterexample.  The claim says that when the stylesheet text
cannot be obtained on any path the export fails fatally with no artifact;
but in an environment with no manifest, no inline style element and a
failing stylesheet fetch, `getCssText` returns the empty string and the
export still delivers an artifact. -/
theorem c3_css_failure_not_fatal :
    getCssText none none
      (fun u => if u = cssUrl then Except.error JsErr.fetchFailure
        else if u = HTML2CANVAS_CDN then Except.error JsErr.fetchFailure
        else Except.ok "y".data) = [] ∧
    (exportStandaloneHtml
        ⟨none, none,
         fun u => if u = cssUrl then Except.error JsErr.fetchFailure
           else if u = HTML2CANVAS_CDN then Except.error JsErr.fetchFailure
           else Except.ok "y".data,
         "\x7b\x7d".data, none⟩).isOk = true := by
  constructor
  · decide
  · decide

/-- C3, amended.  Stylesheet acquisition failure is recoverable, like the
third-party library: when no embedded or inline stylesheet is available and
the stylesheet fetch fails, `getCssText` yields the empty string and the
export proceeds to deliver an artifact (provided module acquisition
succeeds). -/
theorem c3_css_failure_recoverable (env : Env) (err : JsErr)
    (hemb : env.embedded = none)
    (hinline : env.inlineCss = none ∨ env.inlineCss = some [])
    (hcss : env.fetch cssUrl = Except.error err)
    (hmod : ∀ p ∈ MODULE_PATHS, ∃ t, env.fetch (dotSlash p) = Except.ok t) :
    getCssText env.embedded env.inlineCss env.fetch = [] ∧
    ∃ out, exportStandaloneHtml env = Except.ok out := by
  have hcss2 : cssFallbackFetch env.fetch = [] := by
    have h3 : fetchText env.fetch cssUrl = Except.error err := hcss
    rw [cssFallbackFetch, h3]
  constructor
  · rw [hemb]
    rcases hinline with h | h
    · rw [h]
      exact hcss2
    · rw [h]
      simp only [getCssText, readEmbeddedSelfModules, cssInlineOr, ne_eq, not_true_eq_false,
        if_false, hcss2]
  · obtain ⟨srcs, hs⟩ := fetchAll_ok env.fetch MODULE_PATHS hmod
    have hexp : exportStandaloneHtml env = Except.ok
        (buildStandaloneHtml (some (jsOrStr env.storeTitle "diagram".data))
          (getCssText env.embedded env.inlineCss env.fetch) env.diagramJson
          (buildImportMapFromSources srcs).importMapImports
          (html2canvasFallback env.fetch) srcs,
         safeFileName "diagram.html".data (some (jsOrStr env.storeTitle "diagram".data))) := by
      simp only [exportStandaloneHtml, collectModuleRawSources, readEmbeddedSelfModules, hemb,
        hs, getHtml2CanvasCode]
    exact ⟨_, hexp⟩

/-- Witness for C3's amended statement at a concrete environment. -/
theorem c3_css_failure_recoverable_witness :
    getCssText none none
      (fun u => if u = cssUrl then Except.error JsErr.fetchFailure
        else if u = HTML2CANVAS_CDN then Except.error JsErr.fetchFailure
        else Except.ok "x".data) = [] ∧
    ∃ out, exportStandaloneHtml
        ⟨none, none,
         fun u => if u = cssUrl then Except.error JsErr.fetchFailure
           else if u = HTML2CANVAS_CDN then Except.error JsErr.fetchFailure
           else Except.ok "x".data,
         "\x7b\x7d".data, none⟩ = Except.ok out :=
  c3_css_failure_recoverable
    ⟨none, none,
     fun u => if u = cssUrl then Except.error JsErr.fetchFailure
       else if u = HTML2CANVAS_CDN then Except.error JsErr.fetchFailure
       else Except.ok "x".data,
     "\x7b\x7d".data, none⟩
    JsErr.fetchFailure rfl (Or.inl rfl) rfl
    (by intro p hp; fin_cases hp <;> exact ⟨"x".data, rfl⟩)

/-! ## Script-escaping lemmas (claim C10) -/

/-- Transfer of a case-insensitive prefix through one replacement pass: a
pattern containing no character that lowercases to `<` and matching the
front of the pass's output also matches the front of its input. -/
theorem startsCI_transfer :
    ∀ fuel (w : Str), (∀ a ∈ w, lowerChar a ≠ '<') →
      ∀ t, startsCI w (replaceScriptFuel fuel t) = true → startsCI w t = true := by
  intro fuel
  induction fuel with
  | zero => intro w hw t h; exact h
  | succ fuel ih =>
    intro w hw t h
    cases t with
    | nil =>
      rw [show replaceScriptFuel (fuel + 1) [] = [] from rfl] at h
      exact h
    | cons c rest =>
      rw [replaceScriptFuel] at h
      by_cases hm : startsCI scriptClose (c :: rest) = true
      · rw [if_pos hm] at h
        cases w with
        | nil => rfl
        | cons a w' =>
          exfalso
          rw [startsCI, Bool.and_eq_true, decide_eq_true_eq] at h
          exact hw a (by simp) (by rw [h.1]; decide)
      · rw [if_neg hm] at h
        cases w with
        | nil => rfl
        | cons a w' =>
          rw [startsCI, Bool.and_eq_true] at h ⊢
          exact ⟨h.1, ih w' (fun x hx => hw x (by simp [hx])) rest h.2⟩

/-- The emitted replacement text `<\/script` contributes no occurrence of
the pattern: an occurrence of `</script` in `<\/script` followed by
anything would have to start inside the literal, and no position there
matches. -/
theorem containsCI_lit_append (u : Str) :
    containsScriptCloseCI ('<' :: '\\' :: '/' :: 's' :: 'c' :: 'r' :: 'i' :: 'p' :: 't' :: u) =
      containsScriptCloseCI u := by
  simp [containsScriptCloseCI, startsCI, lowerChar, scriptClose]

/-- After one replacement pass with sufficient fuel, no case variant of
`</script` remains anywhere in the output. -/
theorem replaceScriptFuel_no_close :
    ∀ fuel s, s.length ≤ fuel → containsScriptCloseCI (replaceScriptFuel fuel s) = false := by
  intro fuel
  induction fuel with
  | zero =>
    intro s hs
    rw [show s = [] from List.length_eq_zero.mp (Nat.le_zero.mp hs)]
    rfl
  | succ fuel ih =>
    intro s hs
    cases s with
    | nil => rfl
    | cons c rest =>
      rw [replaceScriptFuel]
      by_cases hm : startsCI scriptClose (c :: rest) = true
      · rw [if_pos hm, containsCI_lit_append]
        refine ih (rest.drop 7) ?_
        have hd := (List.drop_sublist 7 rest).length_le
        simp only [List.length_cons] at hs
        omega
      · rw [if_neg hm]
        rw [containsScriptCloseCI]
        rw [ih rest (by simp only [List.length_cons] at hs; omega)]
        rw [Bool.or_false]
        simp only [scriptClose] at hm ⊢
        rw [startsCI]
        cases hc : decide (lowerChar '<' = lowerChar c) with
        | false => rw [Bool.false_and]
        | true =>
          rw [Bool.true_and]
          by_contra hcon
          rw [Bool.not_eq_false] at hcon
          have h2 := startsCI_transfer fuel ['/', 's', 'c', 'r', 'i', 'p', 't']
            (by decide) rest hcon
          apply hm
          rw [startsCI, hc, Bool.true_and]
          exact h2

/-- `escapeForScriptTag` leaves no case variant of `</script` in its
output. -/
theorem escapeForScriptTag_no_close (t : Str) :
    containsScriptCloseCI (escapeForScriptTag t) = false :=
  replaceScriptFuel_no_close (replaceScriptCI t).length (replaceScriptCI t) le_rfl

/-- C10.  For every diagram snapshot string and every set of module sources
(with any library and stylesheet texts), the texts placed inside the
assembled document's `initial-diagram` and `__SELF_MODULES__` script
elements contain no occurrence of `</script` in any letter casing, so an
embedded payload can never prematurely close its containing script
element. -/
theorem c10_embedded_script_payloads_escaped (initialJson : Str)
    (rawModules : List (Str × Str)) (h2c css : Str) :
    containsScriptCloseCI (initialDiagramScriptText initialJson) = false ∧
    containsScriptCloseCI (selfModulesScriptText rawModules h2c css) = false :=
  ⟨escapeForScriptTag_no_close _, escapeForScriptTag_no_close _⟩
